import Mathlib

/-!
Verification of the `source-databricks` Airbyte connector
(`source_databricks/client.py`, `streams.py`, `source.py`).

Python dictionaries are modelled as insertion-ordered association lists
`List (String × String)`; Python truthiness of a string is `≠ ""`, of an
`Optional[str]` it is `o.getD "" ≠ ""` (both `None` and `""` are falsy),
and of an `Optional[int]` it is `o.getD 0 ≠ 0` (both `None` and `0` are
falsy).  SQL statements are the strings the code concatenates.  The Python
comparison `>` on strings (lexicographic on code points) is modelled by
`lexLt` on the underlying character lists.
-/

namespace SourceDatabricks

/-- `m.get(k, d)` on a Python dict modelled as an ordered association list. -/
def lookupD (m : List (String × String)) (k d : String) : String :=
  match m.find? (fun p => p.1 == k) with
  | some p => p.2
  | none => d

/-- `m.get(k)` on a Python dict: `None` (`none`) when the key is absent. -/
def lookupOpt (m : List (String × String)) (k : String) : Option String :=
  (m.find? (fun p => p.1 == k)).map (fun p => p.2)

/-- Python dict assignment `m[k] = v`: replaces the value of an existing key
in place (keeping insertion order), otherwise appends the new pair. -/
def setKey (m : List (String × String)) (k v : String) : List (String × String) :=
  if m.any (fun p => p.1 == k) then
    m.map (fun p => if p.1 == k then (k, v) else p)
  else
    m ++ [(k, v)]

/-- Substring containment: the Python test `pat in s`. -/
def containsSub (s pat : String) : Prop := pat.data <:+: s.data

instance (s pat : String) : Decidable (containsSub s pat) := by
  unfold containsSub
  infer_instance

/-- `suf` is a suffix of `s` ("the statement ends with `suf`"). -/
def endsWith (s suf : String) : Prop := suf.data <:+ s.data

instance (s suf : String) : Decidable (endsWith s suf) := by
  unfold endsWith
  infer_instance

/-- Python `s.lower()` (ASCII case folding, as the source uses it). -/
def lowerStr (s : String) : String := String.mk (s.data.map Char.toLower)

/-- The Python comparison `<` on strings, as a computable lexicographic comparison of
the code-point lists: at the first differing character the smaller
character decides; a strict prefix is smaller. -/
def lexLt : List Char → List Char → Bool
  | _, [] => false
  | [], _ :: _ => true
  | a :: as, b :: bs => if a < b then true else if b < a then false else lexLt as bs

/-- Python `s < t` on strings. -/
def strLt (s t : String) : Bool := lexLt s.data t.data

/-! ## `client.py` -/

/-- The SQL statement built by `DatabricksClient.get_table_data`
(client.py lines 104-127): a `SELECT *` over the fully-qualified table,
with `WHERE cursor_field > cursor_value` (value in single quotes) appended when both cursor
arguments are truthy, `ORDER BY cursor_field` when the cursor field is
truthy, and `LIMIT limit` when the limit is truthy. -/
def get_table_data_query (catalog schema table : String)
    (limit : Option Nat) (cursor_field cursor_value : Option String) : String :=
  let query := "SELECT * FROM " ++ catalog ++ "." ++ schema ++ "." ++ table
  let query :=
    if cursor_field.getD "" ≠ "" ∧ cursor_value.getD "" ≠ "" then
      query ++ " WHERE " ++ cursor_field.getD "" ++ " > \x27" ++ cursor_value.getD "" ++ "\x27"
    else query
  let query :=
    if cursor_field.getD "" ≠ "" then query ++ " ORDER BY " ++ cursor_field.getD ""
    else query
  if limit.getD 0 ≠ 0 then query ++ " LIMIT " ++ Nat.repr (limit.getD 0) else query

/-- Outcome of the external world during the probe of `check_connection`
(client.py lines 51-69): either some exception is raised while connecting
or while executing/fetching the probe, or `fetchone()` returns a result
(`none` models Python `None`, `some r` a tuple of integer values). -/
inductive ProbeOutcome where
  | raises (msg : String)
  | fetched (row : Option (List Int))
deriving DecidableEq

/-- `DatabricksClient.check_connection`: executes `SELECT 1`, returns
`(True, None)` when the fetched row is truthy, has positive length and its
first element equals `1`; `(False, "Connection test query failed")`
otherwise; `(False, str(e))` when any exception is raised. -/
def check_connection : ProbeOutcome → Bool × Option String
  | .raises msg => (false, some msg)
  | .fetched none => (false, some "Connection test query failed")
  | .fetched (some r) =>
    if r ≠ [] ∧ 0 < r.length ∧ r.head? = some 1 then (true, none)
    else (false, some "Connection test query failed")

/-- Outcome of constructing the client inside `SourceDatabricks.check_connection`
(source.py lines 18-31): construction may itself raise (e.g. a missing
required config key), otherwise the client-level probe runs. -/
inductive SourceCheckOutcome where
  | initRaises (msg : String)
  | initOk (probe : ProbeOutcome)
deriving DecidableEq

/-- `SourceDatabricks.check_connection`: wraps client construction and the
client-level check in one more `try/except` returning `(False, str(e))`. -/
def source_check_connection : SourceCheckOutcome → Bool × Option String
  | .initRaises msg => (false, some msg)
  | .initOk probe => check_connection probe

/-! ## `streams.py` -/

/-- `DatabricksStream.get_updated_state` (streams.py lines 44-59).
State and record are dicts; when the stream operates incrementally and has
a truthy cursor field, the cursor value of the record (default `""`)
replaces the stored one (default `""`) exactly when it is truthy and
strictly greater under the Python lexicographic string comparison. -/
def get_updated_state (sync_mode cursor_field : String)
    (current_stream_state latest_record : List (String × String)) :
    List (String × String) :=
  if sync_mode = "incremental" ∧ cursor_field ≠ "" then
    let current_cursor_value := lookupD current_stream_state cursor_field ""
    let latest_cursor_value := lookupD latest_record cursor_field ""
    if latest_cursor_value ≠ "" ∧ strLt current_cursor_value latest_cursor_value = true then
      setKey current_stream_state cursor_field latest_cursor_value
    else current_stream_state
  else current_stream_state

/-- The SQL statement issued by `DatabricksStream.read_records`
(streams.py lines 61-97): the cursor value is extracted from the stream
state only when the sync mode is incremental, the state is truthy and the
configured cursor field is truthy; the cursor field is passed to
`get_table_data` only in incremental mode, and no limit is passed. -/
def read_records_query (catalog schema table cursor_field : String)
    (sync_mode : String) (stream_state : List (String × String)) : String :=
  let cursor_value : Option String :=
    if sync_mode = "incremental" ∧ stream_state ≠ [] ∧ cursor_field ≠ "" then
      lookupOpt stream_state cursor_field
    else none
  get_table_data_query catalog schema table none
    (if sync_mode = "incremental" then some cursor_field else none)
    cursor_value

/-- The fixed lookup table of `DatabricksStream._map_databricks_type_to_json`
(streams.py lines 168-189). -/
def type_mapping : List (String × String) :=
  [("string", "string"), ("varchar", "string"), ("char", "string"),
   ("text", "string"), ("int", "integer"), ("integer", "integer"),
   ("bigint", "integer"), ("long", "integer"), ("double", "number"),
   ("float", "number"), ("decimal", "number"), ("boolean", "boolean"),
   ("bool", "boolean"), ("date", "string"), ("timestamp", "string"),
   ("datetime", "string"), ("binary", "string"), ("array", "array"),
   ("map", "object"), ("struct", "object")]

/-- `DatabricksStream._map_databricks_type_to_json` (streams.py lines
161-193): `databricks_type.split("(")[0].lower()` looked up in the table,
defaulting to `"string"`.  `split("(")[0]` is the prefix of the string
before its first opening parenthesis. -/
def map_databricks_type_to_json (databricks_type : String) : String :=
  let base_type := lowerStr (String.mk (databricks_type.data.takeWhile (fun c => c != '(')))
  lookupD type_mapping base_type "string"

/-- The JSON schema produced by `DatabricksStream.get_json_schema`
(streams.py lines 116-159): the outer descriptor is always
`{"type": "object"}` with these properties (column name ↦ the JSON type
inside its `{"type": t}` object) and required column names. -/
structure JsonSchema where
  properties : List (String × String)
  required : List String
deriving DecidableEq

/-- One iteration of the loop of `get_json_schema` over catalog rows
(streams.py lines 130-141): skip the row when its `col_name` is empty or
the literal `"# col_name"`; otherwise record the mapped type and mark the
column required when `"nullable"` does not occur in the lowercased
comment. -/
def schemaStep (acc : JsonSchema) (column : List (String × String)) : JsonSchema :=
  let column_name := lookupD column "col_name" ""
  let column_type := lookupD column "data_type" "string"
  if column_name ≠ "" ∧ column_name ≠ "# col_name" then
    { properties := setKey acc.properties column_name (map_databricks_type_to_json column_type),
      required :=
        if ¬ containsSub (lowerStr (lookupD column "comment" "")) "nullable" then
          acc.required ++ [column_name]
        else acc.required }
  else acc

/-- The fallback schema returned when catalog introspection fails
(streams.py lines 152-159). -/
def fallbackSchema : JsonSchema :=
  { properties := [("id", "string"), ("data", "string")], required := ["id"] }

/-- Outcome of `DatabricksClient.get_table_schema` as observed by
`get_json_schema`: either the catalog rows, or a raised exception. -/
inductive SchemaFetch where
  | raises (msg : String)
  | rows (rs : List (List (String × String)))

/-- `DatabricksStream.get_json_schema` (streams.py lines 116-159): folds
the catalog rows through `schemaStep`, or returns the fallback descriptor
when schema retrieval raised. -/
def get_json_schema : SchemaFetch → JsonSchema
  | .raises _ => fallbackSchema
  | .rows rs => rs.foldl schemaStep { properties := [], required := [] }

/-! ## Helper lemmas -/

/-- `lexLt` agrees with the lexicographic strict order on character lists. -/
theorem lexLt_iff : ∀ (as bs : List Char), lexLt as bs = true ↔ as < bs
  | [], [] => by simp [lexLt]
  | [], b :: bs => by
    simp [lexLt]
    exact List.nil_lt_cons b bs
  | a :: as, [] => by simp [lexLt]
  | a :: as, b :: bs => by
    unfold lexLt
    by_cases hab : a < b
    · simp [hab]
      exact List.Lex.rel hab
    · by_cases hba : b < a
      · simp [hab, hba]
        exact le_of_lt (List.Lex.rel hba)
      · have heq : a = b := le_antisymm (le_of_not_lt hba) (le_of_not_lt hab)
        subst heq
        simp [hab, hba]
        rw [lexLt_iff as bs]
        exact (List.Lex.cons_iff).symm

/-- `strLt` agrees with the strict order on strings. -/
theorem strLt_iff (s t : String) : strLt s t = true ↔ s < t := by
  rw [String.lt_iff_toList_lt]
  exact lexLt_iff s.data t.data

/-- `strLt` is irreflexive. -/
theorem strLt_irrefl (s : String) : strLt s s = false := by
  cases h : strLt s s
  · rfl
  · exact absurd ((strLt_iff s s).1 h) (lt_irrefl s)

/-- After a `setKey` update of an existing key, `find?` hits the new pair. -/
theorem find?_map_setKey (k v : String) :
    ∀ (m : List (String × String)), m.any (fun p => p.1 == k) = true →
      (m.map (fun p => if p.1 == k then (k, v) else p)).find? (fun p => p.1 == k) = some (k, v)
  | [], h => by simp at h
  | p :: ps, h => by
    by_cases hp : (p.1 == k) = true
    · have hfp : (if (p.1 == k) = true then (k, v) else p) = (k, v) := if_pos hp
      simp only [List.map_cons, hfp]
      rw [List.find?_cons_of_pos _ (by simp)]
    · have hfp : (if (p.1 == k) = true then (k, v) else p) = p := if_neg hp
      simp only [List.map_cons, hfp]
      rw [List.find?_cons_of_neg _ (by simpa using hp)]
      apply find?_map_setKey k v ps
      simp only [List.any_cons] at h
      rcases Bool.or_eq_true_iff.mp h with h3 | h3
      · exact absurd h3 hp
      · exact h3

/-- Looking up a key just written by `setKey` returns the written value. -/
theorem lookupD_setKey (m : List (String × String)) (k v d : String) :
    lookupD (setKey m k v) k d = v := by
  unfold setKey
  by_cases h : m.any (fun p => p.1 == k) = true
  · rw [if_pos h]
    unfold lookupD
    rw [find?_map_setKey k v m h]
  · rw [if_neg h]
    unfold lookupD
    have hnone : m.find? (fun p => p.1 == k) = none := by
      rw [List.find?_eq_none]
      intro x hx hpx
      exact h (List.any_eq_true.2 ⟨x, hx, hpx⟩)
    rw [List.find?_append, hnone]
    simp [List.find?]

/-- A pattern whose first character does not occur in `a` cannot straddle
the boundary of `a ++ b`: any occurrence lies inside `b`. -/
theorem infix_right_of_head_notin {pat a b : List Char} {w : Char}
    (hw : pat.head? = some w) (hwa : w ∉ a) (h : pat <:+: a ++ b) : pat <:+: b := by
  obtain ⟨s, t, hst⟩ := h
  rcases List.append_eq_append_iff.mp hst with ⟨a', ha, hta⟩ | ⟨c', hs, hb⟩
  · exfalso
    have hsub : pat <:+: a := ⟨s, a', ha.symm⟩
    exact hwa (hsub.subset (List.mem_of_mem_head? hw))
  · rcases List.append_eq_append_iff.mp hs with ⟨a', ha, hpa⟩ | ⟨c'', hsc, hcp⟩
    · cases a' with
      | nil =>
        simp only [List.nil_append] at hpa
        exact ⟨[], t, by simp [hb, hpa]⟩
      | cons x xs =>
        exfalso
        have hx : w = x := by
          rw [hpa] at hw
          simp only [List.cons_append, List.head?_cons, Option.some.injEq] at hw
          exact hw.symm
        have hmem : x ∈ a := by
          rw [ha]
          exact List.mem_append_right s (List.mem_cons_self x xs)
        exact hwa (hx ▸ hmem)
    · exact ⟨c'', t, by rw [hb, hcp]⟩

/-- One `get_updated_state` call never decreases the stored cursor value. -/
theorem get_updated_state_step_le (mode field : String)
    (st r : List (String × String)) :
    lookupD st field "" ≤ lookupD (get_updated_state mode field st r) field "" := by
  unfold get_updated_state
  by_cases h1 : mode = "incremental" ∧ field ≠ ""
  · rw [if_pos h1]
    by_cases h2 : lookupD r field "" ≠ ""
      ∧ strLt (lookupD st field "") (lookupD r field "") = true
    · rw [if_pos h2]
      rw [lookupD_setKey]
      exact le_of_lt ((strLt_iff _ _).1 h2.2)
    · rw [if_neg h2]
  · rw [if_neg h1]

/-- One `get_updated_state` call either leaves the state untouched or
strictly increases the stored cursor value. -/
theorem get_updated_state_step_cases (mode field : String)
    (st r : List (String × String)) :
    get_updated_state mode field st r = st ∨
      lookupD st field "" < lookupD (get_updated_state mode field st r) field "" := by
  unfold get_updated_state
  by_cases h1 : mode = "incremental" ∧ field ≠ ""
  · rw [if_pos h1]
    by_cases h2 : lookupD r field "" ≠ ""
      ∧ strLt (lookupD st field "") (lookupD r field "") = true
    · rw [if_pos h2]
      right
      rw [lookupD_setKey]
      exact (strLt_iff _ _).1 h2.2
    · rw [if_neg h2]
      left
      rfl
  · rw [if_neg h1]
    left
    rfl

/-- Folding `get_updated_state` over any record sequence never decreases
the stored cursor value. -/
theorem get_updated_state_fold_le (mode field : String) :
    ∀ (records : List (List (String × String))) (st : List (String × String)),
      lookupD st field "" ≤
        lookupD (records.foldl (get_updated_state mode field) st) field ""
  | [], st => le_refl _
  | r :: rs, st => by
    rw [List.foldl_cons]
    exact le_trans (get_updated_state_step_le mode field st r)
      (get_updated_state_fold_le mode field rs _)

/-- Characters of the base-name list stop `takeWhile` exactly at the first
opening parenthesis. -/
theorem takeWhile_paren_stop (rest : List Char) :
    ∀ (l : List Char), (∀ c ∈ l, c ≠ '(') →
      (l ++ '(' :: rest).takeWhile (fun c => c != '(') = l ∧
      l.takeWhile (fun c => c != '(') = l
  | [], _ => by simp [List.takeWhile_cons]
  | c :: cs, h => by
    have hc : c ≠ '(' := h c (List.mem_cons_self c cs)
    have ih := takeWhile_paren_stop rest cs (fun x hx => h x (List.mem_cons_of_mem c hx))
    constructor
    · simp only [List.cons_append, List.takeWhile_cons, bne_iff_ne, ne_eq, hc,
        not_false_eq_true, if_true, ih.1]
    · simp only [List.takeWhile_cons, bne_iff_ne, ne_eq, hc, not_false_eq_true, if_true, ih.2]

/-! ## Claims -/

/-- C1 (counterexample): with the configured cursor field equal to the
empty string, a prior state that does hold the non-empty cursor value
`"2024"` for that field produces a statement with no filter predicate and
no ordering clause, so the claim fails as stated for this cursor field. -/
theorem read_records_empty_cursor_field_counterexample :
    lookupOpt [("", "2024")] "" = some "2024" ∧
    ("2024" : String) ≠ "" ∧
    read_records_query "c" "s" "t" "" "incremental" [("", "2024")]
      = "SELECT * FROM c.s.t" ∧
    ¬ containsSub (read_records_query "c" "s" "t" "" "incremental" [("", "2024")])
      ("WHERE " ++ "" ++ " > \x27" ++ "2024" ++ "\x27") ∧
    ¬ containsSub (read_records_query "c" "s" "t" "" "incremental" [("", "2024")])
      ("ORDER BY " ++ "") := by
  refine ⟨by decide, by decide, by decide, by decide, ?_⟩
  intro h
  revert h
  decide

/-- C1 (amended): for every non-empty cursor field and every non-empty
cursor value, an incremental `read_records` call whose prior state holds
that cursor value issues a SQL statement containing both the filter
predicate `WHERE field > value` (value in single quotes) and the ordering
clause `ORDER BY field`. -/
theorem read_records_incremental_filter_and_order
    (c s t f v : String) (st : List (String × String)) (hf : f ≠ "") (hv : v ≠ "")
    (hstate : lookupOpt st f = some v) :
    containsSub (read_records_query c s t f "incremental" st)
      ("WHERE " ++ f ++ " > \x27" ++ v ++ "\x27") ∧
    containsSub (read_records_query c s t f "incremental" st) ("ORDER BY " ++ f) := by
  have hst : st ≠ [] := by
    intro h
    subst h
    simp [lookupOpt] at hstate
  have hq : read_records_query c s t f "incremental" st
      = "SELECT * FROM " ++ c ++ "." ++ s ++ "." ++ t ++ " WHERE " ++ f ++ " > \x27" ++ v
          ++ "\x27" ++ " ORDER BY " ++ f := by
    simp [read_records_query, get_table_data_query, hst, hf, hstate, hv]
  have eW : (" WHERE " : String).data = [' '] ++ ("WHERE " : String).data := by decide
  have eO : (" ORDER BY " : String).data = [' '] ++ ("ORDER BY " : String).data := by decide
  constructor
  · unfold containsSub
    rw [hq]
    refine ⟨("SELECT * FROM " ++ c ++ "." ++ s ++ "." ++ t).data ++ [' '],
      (" ORDER BY " ++ f).data, ?_⟩
    simp [String.data_append, List.append_assoc, eW]
  · unfold containsSub
    rw [hq]
    refine ⟨("SELECT * FROM " ++ c ++ "." ++ s ++ "." ++ t ++ " WHERE " ++ f ++ " > \x27" ++ v
      ++ "\x27").data ++ [' '], [], ?_⟩
    simp [String.data_append, List.append_assoc, eO]

/-- C1 (witness): the amended theorem applied at a concrete field, value
and prior state. -/
theorem read_records_incremental_filter_and_order_witness :
    containsSub (read_records_query "main" "sales" "orders" "updated_at" "incremental"
        [("updated_at", "2024-01-01")])
      ("WHERE " ++ "updated_at" ++ " > \x27" ++ "2024-01-01" ++ "\x27") ∧
    containsSub (read_records_query "main" "sales" "orders" "updated_at" "incremental"
        [("updated_at", "2024-01-01")])
      ("ORDER BY " ++ "updated_at") :=
  read_records_incremental_filter_and_order "main" "sales" "orders" "updated_at" "2024-01-01"
    [("updated_at", "2024-01-01")] (by decide) (by decide) (by decide)

/-- C2: `get_updated_state` is monotonic: folding it over any sequence of
records never decreases the stored cursor value, and each single call
either leaves the state unchanged or replaces the stored cursor value by a
strictly greater one under the ordering comparison used. -/
theorem get_updated_state_monotone (mode field : String)
    (st : List (String × String)) (records : List (List (String × String))) :
    lookupD st field "" ≤
      lookupD (records.foldl (get_updated_state mode field) st) field "" ∧
    ∀ r st2, get_updated_state mode field st2 r = st2 ∨
      lookupD st2 field "" < lookupD (get_updated_state mode field st2 r) field "" :=
  ⟨get_updated_state_fold_le mode field records st,
    fun r st2 => get_updated_state_step_cases mode field st2 r⟩

/-- C3: in full-refresh mode `read_records` never appends a filter
predicate: the statement is exactly the base `SELECT *` over the
fully-qualified table, and, for every table reference whose fully-qualified
name does not itself contain the word `WHERE`, the statement contains no
`WHERE` at all — regardless of the configured cursor field and of any prior
cursor value in the state. -/
theorem read_records_full_refresh_no_where (c s t f : String)
    (st : List (String × String)) :
    read_records_query c s t f "full_refresh" st
      = "SELECT * FROM " ++ c ++ "." ++ s ++ "." ++ t ∧
    (¬ containsSub (c ++ "." ++ s ++ "." ++ t) "WHERE" →
      ¬ containsSub (read_records_query c s t f "full_refresh" st) "WHERE") := by
  have hq : read_records_query c s t f "full_refresh" st
      = "SELECT * FROM " ++ c ++ "." ++ s ++ "." ++ t := by
    simp [read_records_query, get_table_data_query]
  refine ⟨hq, ?_⟩
  intro h hcon
  apply h
  rw [hq] at hcon
  unfold containsSub at hcon ⊢
  have hdata : ("SELECT * FROM " ++ c ++ "." ++ s ++ "." ++ t).data
      = ("SELECT * FROM " : String).data ++ (c ++ "." ++ s ++ "." ++ t).data := by
    simp [String.data_append]
  rw [hdata] at hcon
  exact infix_right_of_head_notin (w := 'W') (by decide) (by decide) hcon

/-- C3 (witness): the theorem applied at a concrete table reference, with
a configured cursor field and a prior cursor value present in state. -/
theorem read_records_full_refresh_no_where_witness :
    read_records_query "main" "sales" "orders" "updated_at" "full_refresh"
        [("updated_at", "2024-01-01")]
      = "SELECT * FROM " ++ "main" ++ "." ++ "sales" ++ "." ++ "orders" ∧
    ¬ containsSub (read_records_query "main" "sales" "orders" "updated_at" "full_refresh"
        [("updated_at", "2024-01-01")]) "WHERE" :=
  ⟨(read_records_full_refresh_no_where "main" "sales" "orders" "updated_at"
      [("updated_at", "2024-01-01")]).1,
   (read_records_full_refresh_no_where "main" "sales" "orders" "updated_at"
      [("updated_at", "2024-01-01")]).2 (by decide)⟩

/-- C4: `get_updated_state` is idempotent under replay: applying it twice
with the same latest record yields the same state as applying it once. -/
theorem get_updated_state_idempotent (mode field : String)
    (st r : List (String × String)) :
    get_updated_state mode field (get_updated_state mode field st r) r
      = get_updated_state mode field st r := by
  by_cases h1 : mode = "incremental" ∧ field ≠ ""
  · by_cases h2 : lookupD r field "" ≠ ""
      ∧ strLt (lookupD st field "") (lookupD r field "") = true
    · have hinner : get_updated_state mode field st r
          = setKey st field (lookupD r field "") := by
        unfold get_updated_state
        rw [if_pos h1, if_pos h2]
      rw [hinner]
      unfold get_updated_state
      rw [if_pos h1, if_neg]
      intro hcon
      rw [lookupD_setKey] at hcon
      exact absurd hcon.2 (by simp [strLt_irrefl])
    · have hinner : get_updated_state mode field st r = st := by
        unfold get_updated_state
        rw [if_pos h1, if_neg h2]
      rw [hinner]
      exact hinner
  · have hinner : get_updated_state mode field st r = st := by
      unfold get_updated_state
      rw [if_neg h1]
    rw [hinner]
    exact hinner

/-- C5: the connection check never raises past its boundary (it is a total
function of the probe outcome): any exception becomes `(false, message)`,
the probe row `[1]` yields `(true, none)`, and `(true, _)` is returned
exactly when the fetched row is non-empty with first element `1` — in
which case the message is `none`; the source-level wrapper adds one more
exception boundary with the same behaviour. -/
theorem check_connection_boundary :
    (∀ msg, check_connection (.raises msg) = (false, some msg)) ∧
    check_connection (.fetched (some [1])) = (true, none) ∧
    (∀ o, (check_connection o).1 = true ↔
      ∃ r, o = .fetched (some r) ∧ r ≠ [] ∧ r.head? = some 1) ∧
    (∀ o, (check_connection o).1 = true → (check_connection o).2 = none) ∧
    (∀ msg, source_check_connection (.initRaises msg) = (false, some msg)) ∧
    (∀ p, source_check_connection (.initOk p) = check_connection p) := by
  refine ⟨fun msg => rfl, by decide, ?_, ?_, fun msg => rfl, fun p => rfl⟩
  · intro o
    match o with
    | .raises m => simp [check_connection]
    | .fetched none => simp [check_connection]
    | .fetched (some r) =>
      by_cases hc : r ≠ [] ∧ 0 < r.length ∧ r.head? = some 1
      · rw [check_connection, if_pos hc]
        constructor
        · intro _
          exact ⟨r, rfl, hc.1, hc.2.2⟩
        · intro _
          rfl
      · rw [check_connection, if_neg hc]
        constructor
        · intro hfalse
          exact absurd hfalse (by simp)
        · rintro ⟨r2, heq, hne, hh⟩
          cases heq
          exact absurd ⟨hne, List.length_pos.2 hne, hh⟩ hc
  · intro o
    match o with
    | .raises m => intro h; exact absurd h (by simp [check_connection])
    | .fetched none => intro h; exact absurd h (by simp [check_connection])
    | .fetched (some r) =>
      by_cases hc : r ≠ [] ∧ 0 < r.length ∧ r.head? = some 1
      · rw [check_connection, if_pos hc]
        intro _
        rfl
      · rw [check_connection, if_neg hc]
        intro h
        exact absurd h (by simp)

/-- C5 (witness): the boundary theorem applied to a concrete raised
exception and to the concrete probe row `[1]`. -/
theorem check_connection_boundary_witness :
    check_connection (.raises "connection refused") = (false, some "connection refused") ∧
    check_connection (.fetched (some [1])) = (true, none) :=
  ⟨check_connection_boundary.1 "connection refused", check_connection_boundary.2.1⟩

/-- C6: `get_json_schema` skips catalog rows whose column name is empty or
the literal header marker, maps each remaining row through the canonical
type mapping, marks a column required exactly when `nullable` does not
occur (case-insensitively) in its comment, and on the concrete catalog
rows of the claim yields properties `id ↦ integer`, `note ↦ string` with
`required = ["id"]`. -/
theorem get_json_schema_rows_spec :
    (∀ acc column,
      (lookupD column "col_name" "" = "" ∨ lookupD column "col_name" "" = "# col_name") →
      schemaStep acc column = acc) ∧
    (∀ acc column, lookupD column "col_name" "" ≠ "" →
      lookupD column "col_name" "" ≠ "# col_name" →
      (schemaStep acc column).properties
        = setKey acc.properties (lookupD column "col_name" "")
            (map_databricks_type_to_json (lookupD column "data_type" "string")) ∧
      (¬ containsSub (lowerStr (lookupD column "comment" "")) "nullable" →
        (schemaStep acc column).required = acc.required ++ [lookupD column "col_name" ""]) ∧
      (containsSub (lowerStr (lookupD column "comment" "")) "nullable" →
        (schemaStep acc column).required = acc.required)) ∧
    get_json_schema (.rows [[("col_name", "# col_name")],
      [("col_name", "id"), ("data_type", "bigint"), ("comment", "")],
      [("col_name", "note"), ("data_type", "string"), ("comment", "nullable field")]])
      = { properties := [("id", "integer"), ("note", "string")], required := ["id"] } := by
  refine ⟨?_, ?_, by decide⟩
  · intro acc column h
    unfold schemaStep
    rw [if_neg]
    rintro ⟨h1, h2⟩
    rcases h with h | h
    · exact h1 h
    · exact h2 h
  · intro acc column h1 h2
    unfold schemaStep
    rw [if_pos ⟨h1, h2⟩]
    refine ⟨rfl, ?_, ?_⟩
    · intro hn
      simp only [if_pos hn]
    · intro hn
      rw [if_neg]
      simp [hn]

/-- C6 (witness): the skip clause of the theorem applied to the concrete
header-marker row. -/
theorem get_json_schema_rows_spec_witness :
    schemaStep { properties := [], required := [] } [("col_name", "# col_name")]
      = { properties := [], required := [] } :=
  get_json_schema_rows_spec.1 { properties := [], required := [] }
    [("col_name", "# col_name")] (by decide)

/-- C7: every failure during catalog introspection is absorbed:
`get_json_schema` returns the fallback descriptor with exactly the
properties `id ↦ string`, `data ↦ string` and `required = ["id"]`. -/
theorem get_json_schema_failure_fallback (msg : String) :
    get_json_schema (.raises msg)
      = { properties := [("id", "string"), ("data", "string")], required := ["id"] } := rfl

/-- C8: the type mapping truncates a parenthesized parameter suffix,
lower-cases the base name and looks it up with default `string`; in
particular on `decimal(10,2)`, `VARCHAR(255)` and `unknown_type`. -/
theorem map_databricks_type_spec :
    map_databricks_type_to_json "decimal(10,2)" = "number" ∧
    map_databricks_type_to_json "VARCHAR(255)" = "string" ∧
    map_databricks_type_to_json "unknown_type" = "string" ∧
    ∀ base sfx : String, (∀ c ∈ base.data, c ≠ '(') →
      map_databricks_type_to_json (base ++ "(" ++ sfx)
        = map_databricks_type_to_json base := by
  refine ⟨by decide, by decide, by decide, ?_⟩
  intro base sfx hb
  unfold map_databricks_type_to_json
  have hdata : (base ++ "(" ++ sfx).data = base.data ++ '(' :: sfx.data := by
    have hp : ("(" : String).data = ['('] := rfl
    simp [String.data_append, hp]
  rw [hdata, (takeWhile_paren_stop sfx.data base.data hb).1,
    (takeWhile_paren_stop sfx.data base.data hb).2]

/-- C8 (witness): the truncation clause of the theorem applied to the
concrete base name `decimal` with suffix `10,2)`. -/
theorem map_databricks_type_spec_witness :
    map_databricks_type_to_json ("decimal" ++ "(" ++ "10,2)")
      = map_databricks_type_to_json "decimal" :=
  map_databricks_type_spec.2.2.2 "decimal" "10,2)" (by decide)

/-- C9 (counterexample): the limit value `0` is supplied but falsy in
Python, so `get_table_data` omits the row-count cap clause entirely: the
generated statement equals the base query and contains no `LIMIT`. -/
theorem get_table_data_limit_zero_counterexample :
    get_table_data_query "c" "s" "t" (some 0) none none = "SELECT * FROM c.s.t" ∧
    ¬ containsSub (get_table_data_query "c" "s" "t" (some 0) none none) "LIMIT" := by
  refine ⟨by decide, ?_⟩
  intro h
  revert h
  decide

/-- C9 (amended): a supplied non-zero limit appends the row-count cap
clause, and the statement ends with it; a supplied limit of `0` behaves
like an absent limit, and an absent limit omits the clause (the statement
is unchanged). -/
theorem get_table_data_limit_clause (c s t : String) (f v : Option String)
    (n : Nat) (hn : n ≠ 0) :
    get_table_data_query c s t (some n) f v
      = get_table_data_query c s t none f v ++ (" LIMIT " ++ Nat.repr n) ∧
    endsWith (get_table_data_query c s t (some n) f v) (" LIMIT " ++ Nat.repr n) ∧
    get_table_data_query c s t (some 0) f v = get_table_data_query c s t none f v := by
  refine ⟨?_, ?_, ?_⟩
  · simp [get_table_data_query, hn, String.append_assoc]
  · unfold endsWith
    have hq : get_table_data_query c s t (some n) f v
        = get_table_data_query c s t none f v ++ (" LIMIT " ++ Nat.repr n) := by
      simp [get_table_data_query, hn, String.append_assoc]
    rw [hq]
    exact ⟨(get_table_data_query c s t none f v).data, by simp [String.data_append]⟩
  · simp [get_table_data_query]

/-- C9 (witness): the amended theorem applied at the concrete limit `5`. -/
theorem get_table_data_limit_clause_witness :
    get_table_data_query "c" "s" "t" (some 5) none none
      = get_table_data_query "c" "s" "t" none none none ++ (" LIMIT " ++ Nat.repr 5) ∧
    endsWith (get_table_data_query "c" "s" "t" (some 5) none none)
      (" LIMIT " ++ Nat.repr 5) ∧
    get_table_data_query "c" "s" "t" (some 0) none none
      = get_table_data_query "c" "s" "t" none none none :=
  get_table_data_limit_clause "c" "s" "t" none none 5 (by decide)

/-- C10: when the latest record lacks the cursor field or carries an empty
cursor value, `get_updated_state` returns the state unchanged for every
sync mode and every current state: an empty incoming cursor value can
never overwrite or clear an existing watermark. -/
theorem get_updated_state_unchanged_on_missing_or_empty (mode field : String)
    (st r : List (String × String))
    (h : lookupOpt r field = none ∨ lookupOpt r field = some "") :
    get_updated_state mode field st r = st := by
  have hl : lookupD r field "" = "" := by
    rcases hfind : r.find? (fun p => p.1 == field) with _ | p
    · unfold lookupD
      rw [hfind]
    · unfold lookupOpt at h
      rw [hfind] at h
      have hp2 : p.2 = "" := by
        rcases h with h | h
        · simp at h
        · simpa using h
      unfold lookupD
      rw [hfind]
      exact hp2
  unfold get_updated_state
  by_cases h1 : mode = "incremental" ∧ field ≠ ""
  · rw [if_pos h1, if_neg]
    intro hcon
    exact hcon.1 hl
  · rw [if_neg h1]

/-- C10 (witness): the theorem applied to a record lacking the cursor
field, with an existing watermark in state. -/
theorem get_updated_state_unchanged_on_missing_or_empty_witness :
    get_updated_state "incremental" "updated_at" [("updated_at", "2024-01-01")] []
      = [("updated_at", "2024-01-01")] :=
  get_updated_state_unchanged_on_missing_or_empty "incremental" "updated_at"
    [("updated_at", "2024-01-01")] [] (by decide)

end SourceDatabricks
